import Mathlib

/-!
Shallow embedding of the Bybit leverage calculator (src/src/App.jsx).
JavaScript numbers are modelled as exact rationals extended with NaN and
signed infinities; binary floating-point rounding is idealized away, so
arithmetic on finite values is exact rational arithmetic.
-/

namespace BybitCalc

/-- A JavaScript number: NaN, a signed infinity, or a finite value modelled
as an exact rational. -/
inductive JSNum where
  | nan : JSNum
  | posInf : JSNum
  | negInf : JSNum
  | num : ℚ → JSNum
deriving DecidableEq

/-- JavaScript unary minus. -/
def jneg : JSNum → JSNum
  | JSNum.nan => JSNum.nan
  | JSNum.posInf => JSNum.negInf
  | JSNum.negInf => JSNum.posInf
  | JSNum.num a => JSNum.num (-a)

/-- JavaScript addition. -/
def jadd : JSNum → JSNum → JSNum
  | JSNum.nan, _ => JSNum.nan
  | _, JSNum.nan => JSNum.nan
  | JSNum.num a, JSNum.num b => JSNum.num (a + b)
  | JSNum.posInf, JSNum.negInf => JSNum.nan
  | JSNum.negInf, JSNum.posInf => JSNum.nan
  | JSNum.posInf, _ => JSNum.posInf
  | JSNum.negInf, _ => JSNum.negInf
  | JSNum.num _, JSNum.posInf => JSNum.posInf
  | JSNum.num _, JSNum.negInf => JSNum.negInf

/-- JavaScript subtraction. -/
def jsub (a b : JSNum) : JSNum := jadd a (jneg b)

/-- JavaScript multiplication. -/
def jmul : JSNum → JSNum → JSNum
  | JSNum.nan, _ => JSNum.nan
  | _, JSNum.nan => JSNum.nan
  | JSNum.num a, JSNum.num b => JSNum.num (a * b)
  | JSNum.posInf, JSNum.num b =>
      if b = 0 then JSNum.nan else if 0 < b then JSNum.posInf else JSNum.negInf
  | JSNum.negInf, JSNum.num b =>
      if b = 0 then JSNum.nan else if 0 < b then JSNum.negInf else JSNum.posInf
  | JSNum.num a, JSNum.posInf =>
      if a = 0 then JSNum.nan else if 0 < a then JSNum.posInf else JSNum.negInf
  | JSNum.num a, JSNum.negInf =>
      if a = 0 then JSNum.nan else if 0 < a then JSNum.negInf else JSNum.posInf
  | JSNum.posInf, JSNum.posInf => JSNum.posInf
  | JSNum.posInf, JSNum.negInf => JSNum.negInf
  | JSNum.negInf, JSNum.posInf => JSNum.negInf
  | JSNum.negInf, JSNum.negInf => JSNum.posInf

/-- JavaScript division (the sign of a zero divisor is idealized positive). -/
def jdiv : JSNum → JSNum → JSNum
  | JSNum.nan, _ => JSNum.nan
  | _, JSNum.nan => JSNum.nan
  | JSNum.num a, JSNum.num b =>
      if b = 0 then
        if a = 0 then JSNum.nan
        else if 0 < a then JSNum.posInf else JSNum.negInf
      else JSNum.num (a / b)
  | JSNum.posInf, JSNum.num b => if 0 ≤ b then JSNum.posInf else JSNum.negInf
  | JSNum.negInf, JSNum.num b => if 0 ≤ b then JSNum.negInf else JSNum.posInf
  | JSNum.num _, JSNum.posInf => JSNum.num 0
  | JSNum.num _, JSNum.negInf => JSNum.num 0
  | JSNum.posInf, JSNum.posInf => JSNum.nan
  | JSNum.posInf, JSNum.negInf => JSNum.nan
  | JSNum.negInf, JSNum.posInf => JSNum.nan
  | JSNum.negInf, JSNum.negInf => JSNum.nan

/-- Truthiness of a JavaScript number: NaN and 0 are falsy. -/
def jsFalsy : JSNum → Bool
  | JSNum.nan => true
  | JSNum.posInf => false
  | JSNum.negInf => false
  | JSNum.num a => a = 0

/-- JavaScript strict less-than; any comparison with NaN is false. -/
def jsLt : JSNum → JSNum → Bool
  | JSNum.nan, _ => false
  | _, JSNum.nan => false
  | JSNum.num a, JSNum.num b => a < b
  | JSNum.negInf, JSNum.negInf => false
  | JSNum.negInf, _ => true
  | _, JSNum.negInf => false
  | JSNum.posInf, _ => false
  | JSNum.num _, JSNum.posInf => true

/-- JavaScript strict greater-than. -/
def jsGt (a b : JSNum) : Bool := jsLt b a

/-- JavaScript Math.abs. -/
def jsAbs : JSNum → JSNum
  | JSNum.nan => JSNum.nan
  | JSNum.posInf => JSNum.posInf
  | JSNum.negInf => JSNum.posInf
  | JSNum.num a => JSNum.num |a|

@[simp] theorem jneg_num (a : ℚ) : jneg (JSNum.num a) = JSNum.num (-a) := rfl

@[simp] theorem jadd_num (a b : ℚ) :
    jadd (JSNum.num a) (JSNum.num b) = JSNum.num (a + b) := rfl

@[simp] theorem jsub_num (a b : ℚ) :
    jsub (JSNum.num a) (JSNum.num b) = JSNum.num (a - b) := by
  show JSNum.num (a + -b) = JSNum.num (a - b)
  rw [← sub_eq_add_neg]

@[simp] theorem jmul_num (a b : ℚ) :
    jmul (JSNum.num a) (JSNum.num b) = JSNum.num (a * b) := rfl

theorem jdiv_num (a : ℚ) {b : ℚ} (hb : b ≠ 0) :
    jdiv (JSNum.num a) (JSNum.num b) = JSNum.num (a / b) := by
  simp [jdiv, hb]

theorem jdiv_zero_zero : jdiv (JSNum.num 0) (JSNum.num 0) = JSNum.nan := by
  simp [jdiv]

@[simp] theorem jsFalsy_num (a : ℚ) : jsFalsy (JSNum.num a) = decide (a = 0) := rfl

/-! ### The applied fragment of JavaScript string primitives -/

/-- Numeric value of a decimal digit character. -/
def charVal (c : Char) : ℕ := c.toNat - 48

/-- Value of a list of decimal digit characters read left to right. -/
def digitsToNat (cs : List Char) : ℕ :=
  cs.foldl (fun a c => 10 * a + charVal c) 0

/-- Strip a leading sign character, reporting whether it was a minus. -/
def stripSign : List Char → Bool × List Char
  | [] => (false, [])
  | c :: rest =>
      if c == '-' then (true, rest)
      else if c == '+' then (false, rest)
      else (false, c :: rest)

/-- The fraction digits after a leading decimal point, if any. -/
def fracDigits : List Char → List Char
  | [] => []
  | c :: rest => if c == '.' then rest.takeWhile Char.isDigit else []

/-- JavaScript parseFloat, restricted to the plain decimal grammar
sign? digits? (dot digits?)? with any trailing characters ignored, which
covers every string this application feeds to it (exponent forms and
leading whitespace are not modelled). An input with no leading digits at
all parses to NaN. -/
def parseFloat (s : String) : JSNum :=
  let signed := stripSign s.data
  let cs := signed.2
  let intPart := cs.takeWhile Char.isDigit
  let fracPart := fracDigits (cs.dropWhile Char.isDigit)
  if intPart.isEmpty && fracPart.isEmpty then JSNum.nan
  else
    let q : ℚ := (digitsToNat intPart : ℚ) +
      (digitsToNat fracPart : ℚ) / ((10 : ℚ) ^ fracPart.length)
    JSNum.num (if signed.1 then -q else q)

/-- JavaScript String.prototype.includes, on character lists. -/
def listIncludes (need : List Char) : List Char → Bool
  | [] => need.isEmpty
  | c :: rest => need.isPrefixOf (c :: rest) || listIncludes need rest

/-- JavaScript String.prototype.endsWith. -/
def jsEndsWith (s suf : String) : Bool := suf.data.isSuffixOf s.data

/-- JavaScript String.prototype.toLowerCase on the ASCII symbols this
application handles, as a character list. -/
def jsToLower (s : String) : List Char := s.data.map Char.toLower

/-! ### The calculation engine (calculateResults) -/

/-- The three target-price input strings (empty string = field left blank). -/
structure Targets where
  target1 : String
  target2 : String
  target3 : String
deriving DecidableEq

/-- The inputs the calculation engine reads: whether a pair is selected,
the live current price (none = null), the raw entry-amount string, the
leverage number, the position-type string and the target strings. -/
structure CalcInput where
  selectedPairPresent : Bool
  currentPrice : Option JSNum
  entryAmount : String
  leverage : JSNum
  positionType : String
  targets : Targets
deriving DecidableEq

/-- One computed result entry, as pushed by calculateResults. The pnl
field holds the net PnL, exactly as in the source. -/
structure CalcResult where
  target : ℕ
  targetPrice : JSNum
  pnl : JSNum
  roi : JSNum
  fees : JSNum
  finalAmount : JSNum
deriving DecidableEq

/-- Truthiness of the currentPrice state value (null, 0 and NaN are falsy). -/
def jsFalsyOpt : Option JSNum → Bool
  | none => true
  | some v => jsFalsy v

/-- The body of the forEach loop of calculateResults: one target slot,
given the precomputed position size and quantity. Returns none when the
slot is skipped. -/
def calcTarget (positionSize quantity currentPrice entryAmountNum : JSNum)
    (positionType : String) (slot : ℕ × String) : Option CalcResult :=
  let targetPrice := parseFloat slot.2
  if jsFalsy targetPrice then none
  else
    let bybitFeeRate : JSNum := JSNum.num (6 / 10000)
    let isLong := positionType = "Long"
    let pnl := if isLong then jmul (jsub targetPrice currentPrice) quantity
               else jmul (jsub currentPrice targetPrice) quantity
    let entryFee := jmul positionSize bybitFeeRate
    let exitFee := jmul (jmul quantity targetPrice) bybitFeeRate
    let totalFees := jadd entryFee exitFee
    let netPnl := jsub pnl totalFees
    let roi := jmul (jdiv netPnl entryAmountNum) (JSNum.num 100)
    some { target := slot.1, targetPrice := targetPrice, pnl := netPnl,
           roi := roi, fees := totalFees,
           finalAmount := jadd entryAmountNum netPnl }

/-- calculateResults from App.jsx: guard on the four required inputs,
then per-target computation over the three slots. -/
def calculateResults (inp : CalcInput) : List CalcResult :=
  if !inp.selectedPairPresent || jsFalsyOpt inp.currentPrice
      || inp.entryAmount == "" || inp.targets.target1 == "" then []
  else
    let currentPrice := inp.currentPrice.getD JSNum.nan
    let entryAmountNum := parseFloat inp.entryAmount
    let positionSize := jmul entryAmountNum inp.leverage
    let quantity := jdiv positionSize currentPrice
    ([(1, inp.targets.target1), (2, inp.targets.target2),
      (3, inp.targets.target3)]).filterMap
      (calcTarget positionSize quantity currentPrice entryAmountNum
        inp.positionType)

/-! ### Instruments, search (searchCryptoPairs) -/

/-- The leverageFilter object of an instrument record, as delivered by the
market API (string-valued bounds). -/
structure LeverageFilter where
  minLeverage : String
  maxLeverage : String
deriving DecidableEq

/-- One raw instrument record from the instruments-info endpoint; a missing
leverageFilter is modelled as none. -/
structure RawInstrument where
  symbol : String
  status : String
  leverageFilter : Option LeverageFilter
deriving DecidableEq

/-- Optional-chaining access item.leverageFilter?.minLeverage, with the
undefined outcome modelled as the empty string. -/
def lfMin : Option LeverageFilter → String
  | none => ""
  | some lf => lf.minLeverage

/-- Optional-chaining access item.leverageFilter?.maxLeverage. -/
def lfMax : Option LeverageFilter → String
  | none => ""
  | some lf => lf.maxLeverage

/-- JavaScript s || d for strings: the fallback applies exactly when s is
empty. -/
def strOr (s d : String) : String := if s = "" then d else s

/-- A normalized pair object as built by the search and restore paths. -/
structure PairObj where
  symbol : String
  baseSymbol : String
  category : String
  minLeverage : JSNum
  maxLeverage : JSNum
  categoryLabel : String
deriving DecidableEq

/-- The filter predicate of searchCryptoPairs: substring match on the
lowercased symbol, USDT or USD ending, Trading status, a leverageFilter
present, and maxLeverage above 1. -/
def searchFilter (searchValue : String) (item : RawInstrument) : Bool :=
  (listIncludes (jsToLower searchValue) (jsToLower item.symbol) &&
    (jsEndsWith item.symbol "USDT" || jsEndsWith item.symbol "USD")) &&
  item.status == "Trading" &&
  item.leverageFilter.isSome &&
  jsGt (parseFloat (lfMax item.leverageFilter)) (JSNum.num 1)

/-- The map step of searchCryptoPairs: a matching raw instrument becomes a
pair object; inverse symbols get the .I display ending. -/
def toPairObj (category : String) (item : RawInstrument) : PairObj :=
  { symbol := if category == "linear" then item.symbol else item.symbol ++ ".I"
    baseSymbol := item.symbol
    category := category
    minLeverage := parseFloat (strOr (lfMin item.leverageFilter) "1")
    maxLeverage := parseFloat (strOr (lfMax item.leverageFilter) "100")
    categoryLabel := if category == "linear" then "USDT Perpetual"
                     else "Inverse Perpetual" }

/-- One category of search results: none models a failed fetch, a nonzero
retCode or a missing list, in which case the category contributes nothing. -/
def categoryPairs (category : String) (res : Option (List RawInstrument))
    (searchValue : String) : List PairObj :=
  match res with
  | none => []
  | some list => (list.filter (searchFilter searchValue)).map (toPairObj category)

/-- One step of the deduplication loops: push the pair and record its base
symbol unless the base symbol was already seen. -/
def addUnique (acc : List PairObj × List String) (pair : PairObj) :
    List PairObj × List String :=
  if pair.baseSymbol ∈ acc.2 then acc
  else (acc.1 ++ [pair], pair.baseSymbol :: acc.2)

/-- searchCryptoPairs from App.jsx: collect both categories, deduplicate by
base symbol with the linear pass first, and keep at most 12 entries. -/
def searchCryptoPairs (searchValue : String)
    (linearRes inverseRes : Option (List RawInstrument)) : List PairObj :=
  let allPairs := categoryPairs "linear" linearRes searchValue ++
    categoryPairs "inverse" inverseRes searchValue
  let afterLinear := (allPairs.filter (fun p => p.category == "linear")).foldl
    addUnique ([], [])
  let afterInverse := (allPairs.filter (fun p => p.category == "inverse")).foldl
    addUnique afterLinear
  afterInverse.1.take 12

/-! ### Application state, selectPair, URL restore (searchPair) -/

/-- The slice of component state the state-machine claims are about. -/
structure AppState where
  selectedPair : Option PairObj
  leverageInfo : Option (JSNum × JSNum)
  positionType : String
  leverage : JSNum
  entryAmount : String
  targets : Targets
  isLivePriceActive : Bool
deriving DecidableEq

/-- The initial component state. -/
def initialState : AppState :=
  { selectedPair := none
    leverageInfo := none
    positionType := "Long"
    leverage := JSNum.num 1
    entryAmount := ""
    targets := { target1 := "", target2 := "", target3 := "" }
    isLivePriceActive := false }

/-- selectPair from App.jsx, with the initial ticker fetch abstracted as an
optional fetched price (none = failed fetch, nonzero retCode or empty list). -/
def selectPair (pair : PairObj) (fetchedPrice : Option JSNum) (s : AppState) :
    AppState :=
  let s1 := { s with selectedPair := some pair
                     leverageInfo := some (pair.minLeverage, pair.maxLeverage)
                     leverage := pair.minLeverage }
  match fetchedPrice with
  | some _ => { s1 with isLivePriceActive := true }
  | none => { s1 with isLivePriceActive := false }

/-- The query parameters of a shareable URL; absent parameters are modelled
as empty strings (params.get returning null). -/
structure URLParams where
  pair : String
  position : String
  leverage : String
  entry : String
  t1 : String
  t2 : String
  t3 : String
deriving DecidableEq

/-- The instrument lookup of the URL restore path: symbol equality, Trading
status, a leverageFilter present, and maxLeverage above 1; none also covers
a failed fetch, nonzero retCode or missing list for the category. -/
def findPairInCategory (pairFromURL : String)
    (res : Option (List RawInstrument)) : Option RawInstrument :=
  match res with
  | none => none
  | some list =>
      list.find? (fun item =>
        item.symbol == pairFromURL &&
        item.status == "Trading" &&
        item.leverageFilter.isSome &&
        jsGt (parseFloat (lfMax item.leverageFilter)) (JSNum.num 1))

/-- The pair object built by the URL restore path (same defaults as the
search path). -/
def urlPairObj (category : String) (item : RawInstrument) : PairObj :=
  { symbol := if category = "linear" then item.symbol else item.symbol ++ ".I"
    baseSymbol := item.symbol
    category := category
    categoryLabel := if category = "linear" then "USDT Perpetual"
                     else "Inverse Perpetual"
    minLeverage := parseFloat (strOr (lfMin item.leverageFilter) "1")
    maxLeverage := parseFloat (strOr (lfMax item.leverageFilter) "100") }

/-- searchPair from the URL-restore effect of App.jsx: resolve the symbol in
the linear category first, then inverse; on success restore every dependent
field (leverage and the other inputs are taken from the URL with no range
validation) and activate live pricing; on failure change nothing. -/
def searchPair (params : URLParams)
    (linearRes inverseRes : Option (List RawInstrument)) (s : AppState) :
    AppState :=
  let found : Option (String × RawInstrument) :=
    match findPairInCategory params.pair linearRes with
    | some item => some ("linear", item)
    | none =>
        match findPairInCategory params.pair inverseRes with
        | some item => some ("inverse", item)
        | none => none
  match found with
  | none => s
  | some (category, item) =>
      let pairObj := urlPairObj category item
      { s with
        selectedPair := some pairObj
        leverageInfo := some (pairObj.minLeverage, pairObj.maxLeverage)
        positionType := if params.position ≠ "" then params.position
                        else s.positionType
        leverage := if params.leverage ≠ "" then parseFloat params.leverage
                    else s.leverage
        entryAmount := if params.entry ≠ "" then params.entry else s.entryAmount
        targets := { target1 := params.t1, target2 := params.t2,
                     target3 := params.t3 }
        isLivePriceActive := true }

/-! ### Trending (fetchTrendingPairs) -/

/-- One raw ticker record from the tickers endpoint (string-valued fields). -/
structure Ticker where
  symbol : String
  lastPrice : String
  price24hPcnt : String
  volume24h : String
deriving DecidableEq

/-- The per-symbol leverage info stored in the instruments Map. -/
structure InstrumentLeverage where
  minLeverage : JSNum
  maxLeverage : JSNum
deriving DecidableEq

/-- The instruments Map of fetchTrendingPairs: Map.set overwrites, so the
lookup returns the info of the last list item carrying the symbol. -/
def instrumentsMapGet (instruments : List RawInstrument) (sym : String) :
    Option InstrumentLeverage :=
  instruments.foldl
    (fun acc item =>
      if item.symbol == sym then
        some { minLeverage := parseFloat (strOr (lfMin item.leverageFilter) "1")
               maxLeverage := parseFloat (strOr (lfMax item.leverageFilter) "100") }
      else acc)
    none

/-- One trending card as built by fetchTrendingPairs. -/
structure TrendingPair where
  symbol : String
  baseSymbol : String
  lastPrice : JSNum
  priceChangePercent : JSNum
  volume24h : JSNum
  isHot : Bool
  category : String
  categoryLabel : String
  minLeverage : JSNum
  maxLeverage : JSNum
deriving DecidableEq

/-- parseFloat(ticker.price24hPcnt || 0): an empty field falls back to the
number 0. -/
def pcntNum (s : String) : JSNum :=
  if s = "" then JSNum.num 0 else parseFloat s

/-- The filter of fetchTrendingPairs: symbol ending USDT, volume above the
fixed floor, positive price, and leverage info present. -/
def trendingFilter (instruments : List RawInstrument) (t : Ticker) : Bool :=
  jsEndsWith t.symbol "USDT" &&
  jsGt (parseFloat t.volume24h) (JSNum.num 1000000) &&
  jsGt (parseFloat t.lastPrice) (JSNum.num 0) &&
  (instrumentsMapGet instruments t.symbol).isSome

/-- The map step of fetchTrendingPairs (the lookup is guaranteed by the
filter; the default is never read). -/
def toTrendingPair (instruments : List RawInstrument) (t : Ticker) :
    TrendingPair :=
  let info := (instrumentsMapGet instruments t.symbol).getD
    { minLeverage := JSNum.nan, maxLeverage := JSNum.nan }
  { symbol := t.symbol
    baseSymbol := t.symbol
    lastPrice := parseFloat t.lastPrice
    priceChangePercent := jmul (pcntNum t.price24hPcnt) (JSNum.num 100)
    volume24h := parseFloat t.volume24h
    isHot := jsGt (jsAbs (pcntNum t.price24hPcnt)) (JSNum.num (5 / 100))
    category := "linear"
    categoryLabel := "USDT Perpetual"
    minLeverage := info.minLeverage
    maxLeverage := info.maxLeverage }

/-- fetchTrendingPairs from App.jsx, for a run where both fetches succeeded
with retCode 0: filter the linear tickers, build the cards, sort descending
by 24h volume, keep the top 8. -/
def fetchTrendingPairs (tickers : List Ticker)
    (instruments : List RawInstrument) : List TrendingPair :=
  (((tickers.filter (trendingFilter instruments)).map
      (toTrendingPair instruments)).mergeSort
    (fun a b => !jsLt a.volume24h b.volume24h)).take 8

/-! ### Spec-side formulas (from the specification text, for refinement) -/

/-- Modelled from the spec: quantity = entryAmount * leverage / currentPrice. -/
def specQuantity (e l cp : ℚ) : ℚ := e * l / cp

/-- Modelled from the spec: raw PnL before fees, by position type. -/
def specRawPnl (pt : String) (e l cp t : ℚ) : ℚ :=
  if pt = "Long" then (t - cp) * specQuantity e l cp
  else (cp - t) * specQuantity e l cp

/-- Modelled from the spec: fees = positionSize * r + quantity * targetPrice * r
with r = 0.0006. -/
def specFees (e l cp t : ℚ) : ℚ :=
  (e * l) * (6 / 10000) + specQuantity e l cp * t * (6 / 10000)

/-- Modelled from the spec: netPnl = rawPnl - fees. -/
def specNetPnl (pt : String) (e l cp t : ℚ) : ℚ :=
  specRawPnl pt e l cp t - specFees e l cp t

/-- Modelled from the spec: roi = netPnl / entryAmount * 100, unclamped. -/
def specRoi (pt : String) (e l cp t : ℚ) : ℚ :=
  specNetPnl pt e l cp t / e * 100

/-- Modelled from the spec: finalAmount = entryAmount + netPnl. -/
def specFinalAmount (pt : String) (e l cp t : ℚ) : ℚ :=
  e + specNetPnl pt e l cp t

theorem parseFloat_empty : parseFloat "" = JSNum.nan := rfl

/-- A string that parses to a finite value is not the empty string. -/
theorem ne_empty_of_parseFloat_num {s : String} {q : ℚ}
    (h : parseFloat s = JSNum.num q) : s ≠ "" := by
  intro hs
  rw [hs, parseFloat_empty] at h
  exact JSNum.noConfusion h

/-- The result list for a run with only target 1 set, computed against the
spec-side formulas. Shared workhorse for the engine claims. -/
theorem calculateResults_one_target (se st pt : String) (e l cp t : ℚ)
    (hse : parseFloat se = JSNum.num e) (hst : parseFloat st = JSNum.num t)
    (he0 : e ≠ 0) (hcp0 : cp ≠ 0) (ht0 : t ≠ 0)
    (hpt : pt = "Long" ∨ pt = "Short") :
    calculateResults
      { selectedPairPresent := true
        currentPrice := some (JSNum.num cp)
        entryAmount := se
        leverage := JSNum.num l
        positionType := pt
        targets := { target1 := st, target2 := "", target3 := "" } } =
    [{ target := 1
       targetPrice := JSNum.num t
       pnl := JSNum.num (specNetPnl pt e l cp t)
       roi := JSNum.num (specRoi pt e l cp t)
       fees := JSNum.num (specFees e l cp t)
       finalAmount := JSNum.num (specFinalAmount pt e l cp t) }] := by
  have hse0 : se ≠ "" := ne_empty_of_parseFloat_num hse
  have hst0 : st ≠ "" := ne_empty_of_parseFloat_num hst
  have hdcp : ∀ a : ℚ, jdiv (JSNum.num a) (JSNum.num cp) = JSNum.num (a / cp) :=
    fun a => jdiv_num a hcp0
  have hde : ∀ a : ℚ, jdiv (JSNum.num a) (JSNum.num e) = JSNum.num (a / e) :=
    fun a => jdiv_num a he0
  simp only [calculateResults, jsFalsyOpt, hse, hst, parseFloat_empty,
    Bool.not_true, jsFalsy, jsFalsy_num, Option.getD_some]
  rw [if_neg (by simp [hse0, hst0, hcp0])]
  simp only [List.filterMap_cons, List.filterMap_nil, calcTarget, hse, hst,
    parseFloat_empty, jsFalsy, jsFalsy_num]
  rw [if_neg (by simp [ht0])]
  simp only [if_true, jmul_num, hdcp]
  rcases hpt with h | h <;> subst h <;>
    simp [specNetPnl, specRawPnl, specFees, specRoi, specFinalAmount,
      specQuantity, hdcp, hde]

/-- C1. For every valid input (entryAmount, leverage, currentPrice,
targetPrice all positive) and position type Long or Short, calculateResults
returns exactly one entry for target 1 whose fields are the specified
formulas: net PnL from the position-type raw PnL minus fees, fees as the
0.06 percent taker rate on entry and exit notional, unclamped roi, and
finalAmount = entryAmount + netPnl. -/
theorem calc_engine_formulas (se st pt : String) (e l cp t : ℚ)
    (hse : parseFloat se = JSNum.num e) (hst : parseFloat st = JSNum.num t)
    (he : 0 < e) (hl : 0 < l) (hcp : 0 < cp) (ht : 0 < t)
    (hpt : pt = "Long" ∨ pt = "Short") :
    calculateResults
      { selectedPairPresent := true
        currentPrice := some (JSNum.num cp)
        entryAmount := se
        leverage := JSNum.num l
        positionType := pt
        targets := { target1 := st, target2 := "", target3 := "" } } =
    [{ target := 1
       targetPrice := JSNum.num t
       pnl := JSNum.num (specNetPnl pt e l cp t)
       roi := JSNum.num (specRoi pt e l cp t)
       fees := JSNum.num (specFees e l cp t)
       finalAmount := JSNum.num (specFinalAmount pt e l cp t) }] :=
  calculateResults_one_target se st pt e l cp t hse hst (ne_of_gt he)
    (ne_of_gt hcp) (ne_of_gt ht) hpt

theorem parseFloat_1000 : parseFloat "1000" = JSNum.num 1000 := by
  simp +decide [parseFloat, stripSign, fracDigits, digitsToNat, charVal]

theorem parseFloat_55000 : parseFloat "55000" = JSNum.num 55000 := by
  simp +decide [parseFloat, stripSign, fracDigits, digitsToNat, charVal]

/-- C1 witness: the spec example. entryAmount 1000, leverage 10, Long,
currentPrice 50000, target1 55000 produce fees 12.6, netPnl 987.4,
roi 98.74, finalAmount 1987.4. -/
theorem calc_engine_formulas_witness :
    calculateResults
      { selectedPairPresent := true
        currentPrice := some (JSNum.num 50000)
        entryAmount := "1000"
        leverage := JSNum.num 10
        positionType := "Long"
        targets := { target1 := "55000", target2 := "", target3 := "" } } =
    [{ target := 1
       targetPrice := JSNum.num 55000
       pnl := JSNum.num 987.4
       roi := JSNum.num 98.74
       fees := JSNum.num 12.6
       finalAmount := JSNum.num 1987.4 }] := by
  rw [calc_engine_formulas "1000" "55000" "Long" 1000 10 50000 55000
    parseFloat_1000 parseFloat_55000 (by norm_num) (by norm_num) (by norm_num)
    (by norm_num) (Or.inl rfl)]
  simp only [specNetPnl, specRawPnl, specFees, specRoi, specFinalAmount,
    specQuantity, if_pos rfl]
  norm_num

@[simp] theorem jmul_nan (x : JSNum) : jmul JSNum.nan x = JSNum.nan := by
  cases x <;> rfl

theorem parseFloat_zero : parseFloat "0" = JSNum.num 0 := by
  simp +decide [parseFloat, stripSign, fracDigits, digitsToNat, charVal]

/-- C9. When the entry amount string is the literal "0", the non-empty
string guard passes and, with a pair selected, a positive current price and
a target-1 string parsing to a nonzero finite price, the engine produces
exactly one entry whose roi is NaN through the unguarded division 0/0,
while the other numeric fields are 0. -/
theorem zero_entry_amount_nan_roi (st pt : String) (cp t l : ℚ)
    (hst : parseFloat st = JSNum.num t) (ht : t ≠ 0) (hcp : 0 < cp) :
    calculateResults
      { selectedPairPresent := true
        currentPrice := some (JSNum.num cp)
        entryAmount := "0"
        leverage := JSNum.num l
        positionType := pt
        targets := { target1 := st, target2 := "", target3 := "" } } =
    [{ target := 1, targetPrice := JSNum.num t, pnl := JSNum.num 0,
       roi := JSNum.nan, fees := JSNum.num 0,
       finalAmount := JSNum.num 0 }] := by
  have hcp0 : cp ≠ 0 := ne_of_gt hcp
  have hst0 : st ≠ "" := ne_empty_of_parseFloat_num hst
  have hdcp : ∀ a : ℚ, jdiv (JSNum.num a) (JSNum.num cp) = JSNum.num (a / cp) :=
    fun a => jdiv_num a hcp0
  simp only [calculateResults, jsFalsyOpt, jsFalsy_num, parseFloat_zero]
  rw [if_neg (by simp [hst0, hcp0])]
  simp only [Option.getD_some, List.filterMap_cons, List.filterMap_nil,
    calcTarget, hst, parseFloat_empty, jsFalsy, jsFalsy_num]
  rw [if_neg (by simp [ht])]
  simp [hdcp, jdiv_zero_zero]

/-- C9 witness: entry amount "0" with the spec example prices yields one
entry with roi NaN. -/
theorem zero_entry_amount_nan_roi_witness :
    calculateResults
      { selectedPairPresent := true
        currentPrice := some (JSNum.num 50000)
        entryAmount := "0"
        leverage := JSNum.num 10
        positionType := "Long"
        targets := { target1 := "55000", target2 := "", target3 := "" } } =
    [{ target := 1, targetPrice := JSNum.num 55000, pnl := JSNum.num 0,
       roi := JSNum.nan, fees := JSNum.num 0, finalAmount := JSNum.num 0 }] :=
  zero_entry_amount_nan_roi "55000" "Long" 50000 55000 10 parseFloat_55000
    (by norm_num) (by norm_num)

/-- C2 amended: with the four guarded inputs present, a target slot
contributes a result entry exactly when parseFloat of its string is
neither NaN nor exactly 0; the source tests only JS falsiness of the
parsed value, so strictly negative target prices are not skipped. -/
theorem target_skipped_iff (inp : CalcInput)
    (hp : inp.selectedPairPresent = true)
    (hcp : jsFalsyOpt inp.currentPrice = false)
    (he : inp.entryAmount ≠ "") (ht1 : inp.targets.target1 ≠ "") :
    (calculateResults inp).map (fun r => r.target) =
      (([(1, inp.targets.target1), (2, inp.targets.target2),
         (3, inp.targets.target3)]).filter
        (fun slot => !jsFalsy (parseFloat slot.2))).map (fun slot => slot.1) := by
  simp only [calculateResults, hp, Bool.not_true]
  rw [if_neg (by simp [hcp, he, ht1])]
  simp only [List.filterMap_cons, List.filterMap_nil, calcTarget]
  by_cases h1 : jsFalsy (parseFloat inp.targets.target1) <;>
  by_cases h2 : jsFalsy (parseFloat inp.targets.target2) <;>
  by_cases h3 : jsFalsy (parseFloat inp.targets.target3) <;>
    simp [h1, h2, h3]

/-- C2 witness: targets "5", "-3", "x" produce exactly the entries for
slots 1 and 2 (the negative price is kept, the non-numeric one skipped). -/
theorem target_skipped_iff_witness :
    (calculateResults
      { selectedPairPresent := true
        currentPrice := some (JSNum.num 100)
        entryAmount := "10"
        leverage := JSNum.num 2
        positionType := "Long"
        targets := { target1 := "5", target2 := "-3", target3 := "x" } }).map
      (fun r => r.target) = [1, 2] := by
  rw [target_skipped_iff _ rfl (by norm_num [jsFalsyOpt]) (by decide) (by decide)]
  simp +decide [parseFloat, stripSign, fracDigits, digitsToNat, charVal]

/-- C2 counterexample: a strictly negative target price is not skipped:
with target1 = "-5" the engine produces a result entry for slot 1. -/
theorem negative_target_not_skipped :
    (calculateResults
      { selectedPairPresent := true
        currentPrice := some (JSNum.num 100)
        entryAmount := "10"
        leverage := JSNum.num 2
        positionType := "Long"
        targets := { target1 := "-5", target2 := "", target3 := "" } }).map
      (fun r => (r.target, r.targetPrice)) = [(1, JSNum.num (-5))] := by
  simp +decide [calculateResults, calcTarget, parseFloat, stripSign,
    fracDigits, digitsToNat, charVal, jsFalsyOpt]

/-- C3 amended: results are withheld exactly on JS falsiness of the four
guarded fields: no selected pair, a null/zero/NaN current price, an empty
entry-amount string, or an empty target-1 string each yield the empty
list; the guard inspects only string emptiness, not numeric validity. -/
theorem results_withheld (inp : CalcInput)
    (h : inp.selectedPairPresent = false ∨ jsFalsyOpt inp.currentPrice = true ∨
      inp.entryAmount = "" ∨ inp.targets.target1 = "") :
    calculateResults inp = [] := by
  simp only [calculateResults]
  rcases h with h | h | h | h <;> simp [h]

/-- C3 witness: with the entry amount left blank, no results are produced
even though everything else is valid. -/
theorem results_withheld_witness :
    calculateResults
      { selectedPairPresent := true
        currentPrice := some (JSNum.num 50000)
        entryAmount := ""
        leverage := JSNum.num 10
        positionType := "Long"
        targets := { target1 := "55000", target2 := "", target3 := "" } } = [] :=
  results_withheld _ (Or.inr (Or.inr (Or.inl rfl)))

/-- C3 counterexample: the non-positive entry amount string "0" passes the
guard and the engine produces a (non-empty) result list. -/
theorem zero_entry_amount_produces_results :
    (calculateResults
      { selectedPairPresent := true
        currentPrice := some (JSNum.num 50000)
        entryAmount := "0"
        leverage := JSNum.num 10
        positionType := "Long"
        targets := { target1 := "55000", target2 := "", target3 := "" } }).length
      = 1 := by
  simp +decide [calculateResults, calcTarget, parseFloat, stripSign,
    fracDigits, digitsToNat, charVal, jsFalsyOpt]

/-- A produced entry carries the index of the slot that produced it. -/
theorem calcTarget_target {ps q cp e : JSNum} {pt : String} {slot : ℕ × String}
    {r : CalcResult} (h : calcTarget ps q cp e pt slot = some r) :
    r.target = slot.1 := by
  simp only [calcTarget] at h
  split at h
  · exact Option.noConfusion h
  · cases h; rfl

/-- Over the three slots, the first entry with target index 1 is exactly the
slot-1 computation, whatever slots 2 and 3 contribute. -/
theorem find1_filterMap (ps q cp e : JSNum) (pt : String) (a b c : String) :
    ((([(1, a), (2, b), (3, c)] : List (ℕ × String)).filterMap
      (calcTarget ps q cp e pt)).find? (fun r => r.target == 1)) =
    calcTarget ps q cp e pt (1, a) := by
  simp only [List.filterMap_cons, List.filterMap_nil]
  rcases h1 : calcTarget ps q cp e pt (1, a) with _ | r1 <;>
    rcases h2 : calcTarget ps q cp e pt (2, b) with _ | r2 <;>
      rcases h3 : calcTarget ps q cp e pt (3, c) with _ | r3
  all_goals
    first
    | (simp [List.find?, calcTarget_target h1, calcTarget_target h2,
        calcTarget_target h3]; done)
    | (simp [List.find?, calcTarget_target h2, calcTarget_target h3]; done)
    | (simp [List.find?, calcTarget_target h1, calcTarget_target h2]; done)
    | (simp [List.find?, calcTarget_target h1, calcTarget_target h3]; done)
    | (simp [List.find?, calcTarget_target h1]; done)
    | (simp [List.find?, calcTarget_target h2]; done)
    | (simp [List.find?, calcTarget_target h3]; done)
    | (simp [List.find?]; done)

/-- C6. The target-1 result entry is a function of the selected pair,
current price, entry amount, leverage, position type and target 1 alone:
two runs differing only in targets 2 and 3 produce the identical target-1
entry. -/
theorem target1_independent (inp : CalcInput) (t2 t3 : String) :
    ((calculateResults
      { inp with targets := { target1 := inp.targets.target1,
                              target2 := t2, target3 := t3 } }).find?
      (fun r => r.target == 1)) =
    ((calculateResults inp).find? (fun r => r.target == 1)) := by
  simp only [calculateResults]
  by_cases hg : (!inp.selectedPairPresent || jsFalsyOpt inp.currentPrice
      || inp.entryAmount == "" || inp.targets.target1 == "") = true
  · rw [if_pos (by simpa using hg), if_pos (by simpa using hg)]
  · rw [if_neg (by simpa using hg), if_neg (by simpa using hg)]
    exact (find1_filterMap _ _ _ _ _ _ _ _).trans
      (find1_filterMap _ _ _ _ _ _ _ _).symm

/-- C7 amended: for a produced entry with positive entry amount, current
price and target price, the fees field is the exact taker-fee formula;
it is strictly positive whenever the leverage is also positive, and for
fixed entry amount and prices it strictly increases with leverage. The
positivity genuinely needs positive leverage: at leverage 0 the produced
entry has fees 0 (see the counterexample). -/
theorem fees_positive_and_monotone (se st pt : String) (e cp t l l2 : ℚ)
    (hse : parseFloat se = JSNum.num e) (hst : parseFloat st = JSNum.num t)
    (he : 0 < e) (hcp : 0 < cp) (ht : 0 < t)
    (hpt : pt = "Long" ∨ pt = "Short") :
    ((calculateResults
      { selectedPairPresent := true
        currentPrice := some (JSNum.num cp)
        entryAmount := se
        leverage := JSNum.num l
        positionType := pt
        targets := { target1 := st, target2 := "", target3 := "" } }).map
      (fun r => r.fees) = [JSNum.num (specFees e l cp t)]) ∧
    ((calculateResults
      { selectedPairPresent := true
        currentPrice := some (JSNum.num cp)
        entryAmount := se
        leverage := JSNum.num l2
        positionType := pt
        targets := { target1 := st, target2 := "", target3 := "" } }).map
      (fun r => r.fees) = [JSNum.num (specFees e l2 cp t)]) ∧
    (0 < l → 0 < specFees e l cp t) ∧
    (l < l2 → specFees e l cp t < specFees e l2 cp t) := by
  have he0 : e ≠ 0 := ne_of_gt he
  have hcp0 : cp ≠ 0 := ne_of_gt hcp
  have ht0 : t ≠ 0 := ne_of_gt ht
  refine ⟨?_, ?_, ?_, ?_⟩
  · rw [calculateResults_one_target se st pt e l cp t hse hst he0 hcp0 ht0 hpt]
    simp
  · rw [calculateResults_one_target se st pt e l2 cp t hse hst he0 hcp0 ht0 hpt]
    simp
  · intro hl
    have h1 : 0 < e * l := mul_pos he hl
    have h2 : 0 < e * l / cp := div_pos h1 hcp
    simp only [specFees, specQuantity]
    nlinarith [mul_pos h2 ht]
  · intro hll
    have hC : 0 < e * (6 / 10000) + e / cp * t * (6 / 10000) := by
      have h2 : 0 < e / cp := div_pos he hcp
      nlinarith [mul_pos h2 ht]
    have key : ∀ x : ℚ, specFees e x cp t =
        x * (e * (6 / 10000) + e / cp * t * (6 / 10000)) := by
      intro x
      simp only [specFees, specQuantity]
      field_simp
      ring
    rw [key l, key l2]
    exact mul_lt_mul_of_pos_right hll hC

/-- C7 witness: at entry amount 1000, prices 50000 and 55000, the produced
fees are 2.52 at leverage 2 and positive, and smaller than at leverage 3. -/
theorem fees_positive_and_monotone_witness :
    ((calculateResults
      { selectedPairPresent := true
        currentPrice := some (JSNum.num 50000)
        entryAmount := "1000"
        leverage := JSNum.num 2
        positionType := "Long"
        targets := { target1 := "55000", target2 := "", target3 := "" } }).map
      (fun r => r.fees) = [JSNum.num 2.52]) ∧
    (0 < specFees 1000 2 50000 55000) ∧
    specFees 1000 2 50000 55000 < specFees 1000 3 50000 55000 := by
  have h := fees_positive_and_monotone "1000" "55000" "Long" 1000 50000 55000
    2 3 parseFloat_1000 parseFloat_55000 (by norm_num) (by norm_num)
    (by norm_num) (Or.inl rfl)
  refine ⟨?_, h.2.2.1 (by norm_num), h.2.2.2 (by norm_num)⟩
  rw [h.1]
  norm_num [specFees, specQuantity]

/-- C7 counterexample: with entry amount 1000, current price 50000 and
target price 55000 all positive but leverage 0 (reachable, since URL
restoration applies no clamping), the produced entry has fees exactly 0,
which is not strictly positive. -/
theorem zero_leverage_zero_fees :
    (calculateResults
      { selectedPairPresent := true
        currentPrice := some (JSNum.num 50000)
        entryAmount := "1000"
        leverage := JSNum.num 0
        positionType := "Long"
        targets := { target1 := "55000", target2 := "", target3 := "" } }).map
      (fun r => r.fees) = [JSNum.num 0] := by
  simp +decide [calculateResults, calcTarget, parseFloat, stripSign,
    fracDigits, digitsToNat, charVal, jsFalsyOpt]
  norm_num [jdiv, jmul, jadd]

/-- C5. If the URL symbol resolves to a tradable instrument with
maxLeverage above 1 in neither category, searchPair changes nothing: no
pair, position type, leverage, entry amount, targets or live-price flag;
from the empty initial state the app stays exactly there. -/
theorem restore_unresolved_keeps_state (params : URLParams)
    (linearRes inverseRes : Option (List RawInstrument)) (s : AppState)
    (hlin : findPairInCategory params.pair linearRes = none)
    (hinv : findPairInCategory params.pair inverseRes = none) :
    searchPair params linearRes inverseRes s = s := by
  simp [searchPair, hlin, hinv]

/-- C5 witness: a URL naming FOOUSDT, with only BTCUSDT listed, leaves the
initial state untouched. -/
theorem restore_unresolved_keeps_state_witness :
    searchPair
      { pair := "FOOUSDT", position := "Short", leverage := "25",
        entry := "500", t1 := "1", t2 := "2", t3 := "3" }
      (some [{ symbol := "BTCUSDT", status := "Trading",
               leverageFilter := some { minLeverage := "1",
                                        maxLeverage := "100" } }])
      none initialState = initialState :=
  restore_unresolved_keeps_state _ _ _ _ (by decide) rfl

/-- C4 amended: selectPair establishes the leverage invariant: it stores the
instrument bounds and sets the leverage to the minimum bound, which lies
within the bounds whenever they are ordered; URL restoration, by contrast,
applies no clamping (see the counterexample), so not every operation that
sets leverage respects the bounds. -/
theorem selectPair_leverage_in_bounds (pair : PairObj)
    (fetchedPrice : Option JSNum) (s : AppState) (a b : ℚ)
    (hmin : pair.minLeverage = JSNum.num a)
    (hmax : pair.maxLeverage = JSNum.num b) (hab : a ≤ b) :
    (selectPair pair fetchedPrice s).leverageInfo =
      some (JSNum.num a, JSNum.num b) ∧
    (selectPair pair fetchedPrice s).leverage = JSNum.num a ∧
    a ≤ a ∧ a ≤ b := by
  cases fetchedPrice <;> simp [selectPair, hmin, hmax, hab]

/-- C4 witness: selecting a 1x-100x instrument sets leverage 1, within the
stored bounds. -/
theorem selectPair_leverage_in_bounds_witness :
    (selectPair
      { symbol := "BTCUSDT", baseSymbol := "BTCUSDT", category := "linear",
        minLeverage := JSNum.num 1, maxLeverage := JSNum.num 100,
        categoryLabel := "USDT Perpetual" }
      (some (JSNum.num 50000)) initialState).leverageInfo =
      some (JSNum.num 1, JSNum.num 100) ∧
    (selectPair
      { symbol := "BTCUSDT", baseSymbol := "BTCUSDT", category := "linear",
        minLeverage := JSNum.num 1, maxLeverage := JSNum.num 100,
        categoryLabel := "USDT Perpetual" }
      (some (JSNum.num 50000)) initialState).leverage = JSNum.num 1 ∧
    (1 : ℚ) ≤ 1 ∧ (1 : ℚ) ≤ 100 :=
  selectPair_leverage_in_bounds _ _ _ 1 100 rfl rfl (by norm_num)

/-- C4 counterexample: restoring from a URL with leverage=1000 for an
instrument with bounds [1, 100] stores leverage 1000 in the state, outside
the instrument bounds restored alongside it. -/
theorem restore_leverage_out_of_bounds :
    (searchPair
      { pair := "BTCUSDT", position := "Long", leverage := "1000",
        entry := "", t1 := "", t2 := "", t3 := "" }
      (some [{ symbol := "BTCUSDT", status := "Trading",
               leverageFilter := some { minLeverage := "1",
                                        maxLeverage := "100" } }])
      none initialState).leverage = JSNum.num 1000 ∧
    (searchPair
      { pair := "BTCUSDT", position := "Long", leverage := "1000",
        entry := "", t1 := "", t2 := "", t3 := "" }
      (some [{ symbol := "BTCUSDT", status := "Trading",
               leverageFilter := some { minLeverage := "1",
                                        maxLeverage := "100" } }])
      none initialState).leverageInfo =
      some (JSNum.num 1, JSNum.num 100) ∧
    ¬ ((1000 : ℚ) ≤ 100) := by
  refine ⟨?_, ?_, by norm_num⟩ <;>
    simp +decide [searchPair, findPairInCategory, urlPairObj, strOr,
      lfMin, lfMax, parseFloat, stripSign, fracDigits, digitsToNat,
      charVal, jsGt, jsLt, initialState, List.find?]

/-- The seen-set only grows under one deduplication step. -/
theorem addUnique_seen_sub (acc : List PairObj × List String) (p : PairObj) :
    acc.2 ⊆ (addUnique acc p).2 := by
  unfold addUnique
  split
  · exact fun x hx => hx
  · exact fun x hx => List.mem_cons_of_mem _ hx

/-- After one deduplication step the base symbol of the pair is seen. -/
theorem addUnique_seen_self (acc : List PairObj × List String) (p : PairObj) :
    p.baseSymbol ∈ (addUnique acc p).2 := by
  unfold addUnique
  split
  · assumption
  · exact List.mem_cons_self _ _

/-- Every base symbol of a processed pair ends up in the seen set. -/
theorem mem_seen_foldl (ps : List PairObj) (acc : List PairObj × List String)
    (x : String) (h : x ∈ acc.2 ∨ ∃ p ∈ ps, p.baseSymbol = x) :
    x ∈ (ps.foldl addUnique acc).2 := by
  induction ps generalizing acc with
  | nil =>
      rcases h with h | ⟨p, hp, _⟩
      · simpa using h
      · simp at hp
  | cons p ps ih =>
      rw [List.foldl_cons]
      apply ih
      rcases h with h | ⟨q, hq, hqx⟩
      · exact Or.inl (addUnique_seen_sub acc p h)
      · rcases List.mem_cons.mp hq with rfl | hq2
        · exact Or.inl (hqx ▸ addUnique_seen_self acc q)
        · exact Or.inr ⟨q, hq2, hqx⟩

/-- A pair emitted by a deduplication pass was carried in, or comes from
the processed list with a base symbol unseen when the pass started. -/
theorem mem_foldl_addUnique (ps : List PairObj)
    (acc : List PairObj × List String) (q : PairObj)
    (h : q ∈ (ps.foldl addUnique acc).1) :
    q ∈ acc.1 ∨ (q ∈ ps ∧ q.baseSymbol ∉ acc.2) := by
  induction ps generalizing acc with
  | nil => exact Or.inl (by simpa using h)
  | cons p ps ih =>
      rw [List.foldl_cons] at h
      rcases ih (addUnique acc p) h with h1 | ⟨hmem, hnot⟩
      · unfold addUnique at h1
        by_cases hb : p.baseSymbol ∈ acc.2
        · rw [if_pos hb] at h1
          exact Or.inl h1
        · rw [if_neg hb] at h1
          rcases List.mem_append.mp h1 with h2 | h2
          · exact Or.inl h2
          · have hqp : q = p := by simpa using h2
            subst hqp
            exact Or.inr ⟨List.mem_cons_self _ _, hb⟩
      · exact Or.inr ⟨List.mem_cons_of_mem _ hmem,
          fun hx => hnot (addUnique_seen_sub acc p hx)⟩

/-- Every pair built for a category carries that category. -/
theorem mem_categoryPairs_category (category searchValue : String)
    (res : Option (List RawInstrument)) (p : PairObj)
    (hp : p ∈ categoryPairs category res searchValue) :
    p.category = category := by
  unfold categoryPairs at hp
  match res with
  | none => simp at hp
  | some list =>
      rcases List.mem_map.mp hp with ⟨item, _, rfl⟩
      rfl

/-- C8. If any linear pair matching the query carries base symbol x, then
no inverse pair with base symbol x survives deduplication, and the final
search result never holds more than 12 entries. -/
theorem search_dedup_and_cap (searchValue : String)
    (linearRes inverseRes : Option (List RawInstrument)) (x : String)
    (hx : x ∈ (categoryPairs "linear" linearRes searchValue).map
      (fun p => p.baseSymbol)) :
    (∀ q ∈ searchCryptoPairs searchValue linearRes inverseRes,
      q.category = "inverse" → q.baseSymbol ≠ x) ∧
    (searchCryptoPairs searchValue linearRes inverseRes).length ≤ 12 := by
  constructor
  · intro q hq hqcat hqx
    unfold searchCryptoPairs at hq
    have hq1 := List.mem_of_mem_take hq
    rcases mem_foldl_addUnique _ _ _ hq1 with h1 | ⟨hmem, hnot⟩
    · rcases mem_foldl_addUnique _ _ _ h1 with h2 | ⟨hmem2, _⟩
      · simp at h2
      · have := (List.mem_filter.mp hmem2).2
        rw [hqcat] at this
        simp at this
    · apply hnot
      apply mem_seen_foldl
      right
      rcases List.mem_map.mp hx with ⟨p, hp, hpx⟩
      refine ⟨p, ?_, hpx.trans hqx.symm⟩
      · apply List.mem_filter.mpr
        refine ⟨List.mem_append_left _ hp, ?_⟩
        simp [mem_categoryPairs_category _ _ _ _ hp]
  · unfold searchCryptoPairs
    simp [List.length_take]

/-- C8 witness: with BTCUSD listed in both categories, the inverse variant
is absent from the final results and the result list is within the cap. -/
theorem search_dedup_and_cap_witness :
    (¬ ({ symbol := "BTCUSD.I", baseSymbol := "BTCUSD", category := "inverse",
          minLeverage := JSNum.num 1, maxLeverage := JSNum.num 100,
          categoryLabel := "Inverse Perpetual" } : PairObj) ∈
        searchCryptoPairs "btc"
          (some [{ symbol := "BTCUSD", status := "Trading",
                   leverageFilter := some { minLeverage := "1",
                                            maxLeverage := "100" } }])
          (some [{ symbol := "BTCUSD", status := "Trading",
                   leverageFilter := some { minLeverage := "1",
                                            maxLeverage := "100" } }])) ∧
    (searchCryptoPairs "btc"
      (some [{ symbol := "BTCUSD", status := "Trading",
               leverageFilter := some { minLeverage := "1",
                                        maxLeverage := "100" } }])
      (some [{ symbol := "BTCUSD", status := "Trading",
               leverageFilter := some { minLeverage := "1",
                                        maxLeverage := "100" } }])).length
      ≤ 12 := by
  have hx : "BTCUSD" ∈
      (categoryPairs "linear"
        (some [{ symbol := "BTCUSD", status := "Trading",
                 leverageFilter := some { minLeverage := "1",
                                          maxLeverage := "100" } }])
        "btc").map (fun p => p.baseSymbol) := by
    simp +decide [categoryPairs, searchFilter, toPairObj, listIncludes,
      jsToLower, jsEndsWith, lfMin, lfMax, strOr, jsGt, jsLt, parseFloat,
      stripSign, fracDigits, digitsToNat, charVal]
  have h := search_dedup_and_cap "btc"
    (some [{ symbol := "BTCUSD", status := "Trading",
             leverageFilter := some { minLeverage := "1",
                                      maxLeverage := "100" } }])
    (some [{ symbol := "BTCUSD", status := "Trading",
             leverageFilter := some { minLeverage := "1",
                                      maxLeverage := "100" } }])
    "BTCUSD" hx
  exact ⟨fun hmem => h.1 _ hmem rfl rfl, h.2⟩

/-- C10. Every entry produced by the trending computation has a symbol
ending in USDT: a ticker whose symbol does not end in USDT is excluded
regardless of its volume, price or price change. -/
theorem trending_symbols_end_USDT (tickers : List Ticker)
    (instruments : List RawInstrument) (p : TrendingPair)
    (hp : p ∈ fetchTrendingPairs tickers instruments) :
    jsEndsWith p.symbol "USDT" = true := by
  unfold fetchTrendingPairs at hp
  have h1 := List.mem_of_mem_take hp
  have h2 := (List.mem_mergeSort).mp h1
  rcases List.mem_map.mp h2 with ⟨t, ht, rfl⟩
  have h3 := (List.mem_filter.mp ht).2
  unfold trendingFilter at h3
  simp only [Bool.and_eq_true] at h3
  exact h3.1.1.1

/-- C10 witness: a qualifying BTCUSDT ticker appears in the trending list
and its symbol ends in USDT. -/
theorem trending_symbols_end_USDT_witness :
    ((toTrendingPair
        [{ symbol := "BTCUSDT", status := "Trading",
           leverageFilter := some { minLeverage := "1",
                                    maxLeverage := "100" } }]
        { symbol := "BTCUSDT", lastPrice := "50000", price24hPcnt := "0.01",
          volume24h := "2000000" }) ∈
      fetchTrendingPairs
        [{ symbol := "BTCUSDT", lastPrice := "50000", price24hPcnt := "0.01",
           volume24h := "2000000" }]
        [{ symbol := "BTCUSDT", status := "Trading",
           leverageFilter := some { minLeverage := "1",
                                    maxLeverage := "100" } }]) ∧
    jsEndsWith (toTrendingPair
        [{ symbol := "BTCUSDT", status := "Trading",
           leverageFilter := some { minLeverage := "1",
                                    maxLeverage := "100" } }]
        { symbol := "BTCUSDT", lastPrice := "50000", price24hPcnt := "0.01",
          volume24h := "2000000" }).symbol "USDT" = true := by
  have hmem : (toTrendingPair
      [{ symbol := "BTCUSDT", status := "Trading",
         leverageFilter := some { minLeverage := "1",
                                  maxLeverage := "100" } }]
      { symbol := "BTCUSDT", lastPrice := "50000", price24hPcnt := "0.01",
        volume24h := "2000000" }) ∈
      fetchTrendingPairs
        [{ symbol := "BTCUSDT", lastPrice := "50000", price24hPcnt := "0.01",
           volume24h := "2000000" }]
        [{ symbol := "BTCUSDT", status := "Trading",
           leverageFilter := some { minLeverage := "1",
                                    maxLeverage := "100" } }] := by
    unfold fetchTrendingPairs
    have hf : trendingFilter
        [{ symbol := "BTCUSDT", status := "Trading",
           leverageFilter := some { minLeverage := "1",
                                    maxLeverage := "100" } }]
        { symbol := "BTCUSDT", lastPrice := "50000", price24hPcnt := "0.01",
          volume24h := "2000000" } = true := by
      simp +decide [trendingFilter, jsEndsWith, instrumentsMapGet, lfMin,
        lfMax, strOr, jsGt, jsLt, parseFloat, stripSign, fracDigits,
        digitsToNat, charVal]
    simp [List.filter, hf]
  exact ⟨hmem, trending_symbols_end_USDT _ _ _ hmem⟩

end BybitCalc
